import Mathlib

/-!
Formal model of the OTT multiband compressor core (ott_plugin.h, ott_main.c,
ott_processing.c, ott_compression.c, the biquad filter unit and the
parameter unit), as a shallow embedding over the reals.

Conventions of the embedding:
* C `float`/`double` values are modelled as real numbers; decimal literals in
  the source are carried over verbatim.
* The hex constants in ott_plugin.h (`LOG_SCALE_FACTOR`, `UNITY_GAIN`,
  `MIN_GAIN_THRESHOLD`, `MAX_COMPRESSION_RATIO`, `NEGATIVE_THRESHOLD`,
  `ENVELOPE_TIME_CONSTANT`) are IEEE-754 double bit patterns (the header
  comments give their double meanings, e.g. 36.0 and 1.0); they are defined
  here as the exact rational values those bit patterns denote.
* C arrays are modelled as total functions from their index type; a struct
  field array `float x[3]` becomes `x : Nat -> Real`.
* Nullable pointers (channel buffers, the plugin pointer itself) become
  `Option` values; an audio channel buffer `float*` becomes `Nat -> Real`.
* The per-sample `for`/`do-while` loops become structural recursion over the
  sample counter.  The peak-envelope loop of OTT_ProcessAudio exists in the
  source in a 4-way-unrolled form plus a scalar remainder form; both traverse
  the samples in increasing order applying the same per-sample update, so
  the model uses one recursion.
* Writes to the preset storage blob (`presetData`, raw byte offsets) are out
  of the modelled state: the specification scopes preset byte-layout
  persistence out, and no modelled operation reads that blob back.
-/

noncomputable section

/-- One audio channel buffer (`float*`). -/
abbrev Buf : Type := Nat → ℝ

-- ===========================================================================
-- Constants from ott_plugin.h
-- ===========================================================================

/-- `ENVELOPE_DECAY_RATE 2.49999994e-05f`: peak envelope decay per sample. -/
def ENVELOPE_DECAY_RATE : ℝ := 2.49999994e-05

/-- `COMPRESSION_SCALING 0.519999981f`. -/
def COMPRESSION_SCALING : ℝ := 0.519999981

/-- `UPWARD_MULT_1 2.27304697f`. -/
def UPWARD_MULT_1 : ℝ := 2.27304697

/-- `UPWARD_MULT_2 0.927524984f`. -/
def UPWARD_MULT_2 : ℝ := 0.927524984

/-- `DELAY_BUFFER_SIZE 0x8000`: 32768-sample circular buffers. -/
def DELAY_BUFFER_SIZE : ℕ := 32768

/-- `NOISE_FLOOR 1e-25`. -/
def NOISE_FLOOR : ℝ := 1e-25

/-- `LOG_SCALE_FACTOR 0x40215f2ced384f29`: the double with this bit pattern,
exactly 4889721167171369/2^49 (about 8.6858896..., i.e. 20/ln 10). -/
def LOG_SCALE_FACTOR : ℝ := 4889721167171369 / 562949953421312

/-- `UNITY_GAIN 0x3ff0000000000000`: the double 1.0. -/
def UNITY_GAIN : ℝ := 1

/-- `MIN_GAIN_THRESHOLD 0x3f847ae147ae147b`: the double closest to 0.01,
exactly 5764607523034235/2^59. -/
def MIN_GAIN_THRESHOLD : ℝ := 5764607523034235 / 576460752303423488

/-- `MAX_COMPRESSION_RATIO 0x4042000000000000`: the double 36.0.
(Renamed from the all-caps source spelling for this development.) -/
def MaxCompressionRatio : ℝ := 36

/-- `NEGATIVE_THRESHOLD -0x3f81000000000000`: minus the double 0.00830078125,
exactly -(17/2048). -/
def NEGATIVE_THRESHOLD : ℝ := -(17 / 2048)

/-- `ENVELOPE_TIME_CONSTANT 0x3fbd791c5f888822`: the double with this bit
pattern, exactly 8295937093437474/2^56 (about 0.11512925..., i.e. ln 10/20). -/
def ENVELOPE_TIME_CONSTANT : ℝ := 8295937093437474 / 72057594037927936

-- ===========================================================================
-- Biquad filter unit (ott_filters.c)
-- ===========================================================================

/-- `BiquadFilter` struct from ott_plugin.h. -/
structure BiquadFilter where
  b0 : ℝ
  b1 : ℝ
  state1 : ℝ
  state2 : ℝ
  coeff_a1 : ℝ
  coeff_a2 : ℝ
  coeff_b2 : ℝ
  input_store : ℝ
  intermediate : ℝ
  output : ℝ
  processed_input : ℝ

/-- `InitializeBiquadFilter`: zero states, pass-through coefficients
(b0 = 1, b1 = a1 = a2 = b2 = 0). -/
def InitializeBiquadFilter : BiquadFilter :=
  { b0 := 1, b1 := 0, state1 := 0, state2 := 0,
    coeff_a1 := 0, coeff_a2 := 0, coeff_b2 := 0,
    input_store := 0, intermediate := 0, output := 0, processed_input := 0 }

/-- `ProcessBiquadFilter`: one-sample Direct-Form-II-like update.  The C
function returns the (lowpass) output and stores every intermediate in the
struct; the model returns the updated struct, whose `output` field is the
returned value. -/
def ProcessBiquadFilter (f : BiquadFilter) (input : ℝ) : BiquadFilter :=
  let w2 := f.state2
  let w1 := f.state1
  let processed := input - w2
  let temp1 := w1 * f.coeff_a1
  let temp2 := processed * f.coeff_a2
  let feedback := processed * f.coeff_b2
  let inter := temp1 + temp2
  let out := w1 * f.coeff_a2 + w2 + feedback
  { f with
    input_store := input
    processed_input := processed
    intermediate := inter
    output := out
    state1 := inter + inter - w1
    state2 := out + out - w2 }

/-- `GetBiquadLowpass`: the stored output. -/
def GetBiquadLowpass (f : BiquadFilter) : ℝ := f.output

/-- `GetBiquadHighpass`: input - intermediate*b1 - lowpass. -/
def GetBiquadHighpass (f : BiquadFilter) : ℝ :=
  f.input_store - f.intermediate * f.b1 - f.output

-- ===========================================================================
-- Compressor engine (ott_compression.c)
-- ===========================================================================

/-- `CompressorState` struct from ott_plugin.h. -/
structure CompressorState where
  rms_smoother : ℝ
  rms_smoothing_coeff : ℝ
  log_envelope : ℝ
  threshold : ℝ
  ratio_state : ℝ
  gain_reduction : ℝ
  attack_coeff : ℝ
  release_coeff : ℝ
  release_time : ℝ
  upward_ratio : ℝ
  envelope_output : ℝ
  processed_envelope : ℝ
  linear_coeff : ℝ
  knee_coeff : ℝ

/-- `InitializeCompressor`: the neutral start state. -/
def InitializeCompressor : CompressorState :=
  { rms_smoother := 0, rms_smoothing_coeff := 0.1,
    log_envelope := 0, threshold := -20.0,
    ratio_state := 0, gain_reduction := 0,
    attack_coeff := 0.1, release_coeff := 0.01,
    release_time := 1.0, upward_ratio := 2.0,
    envelope_output := 1.0, processed_envelope := 1.0,
    linear_coeff := 1.0, knee_coeff := 0.5 }

/-- `SetCompressorParameters(comp, threshold, ratio, attack, release,
upward_ratio)`. -/
def SetCompressorParameters (comp : CompressorState)
    (threshold ratio attack release upward_r : ℝ) : CompressorState :=
  { comp with
    threshold := threshold
    ratio_state := ratio
    attack_coeff := attack
    release_coeff := release
    upward_ratio := upward_r
    rms_smoothing_coeff := min 0.5 (attack * 10.0) }

/-- The smoothed RMS computed at the top of `ProcessCompressorBand`:
`(rms_smoother - inputPower) * rms_smoothing_coeff + inputPower`. -/
def mainPathSmoothedRms (comp : CompressorState) (inputPower : ℝ) : ℝ :=
  (comp.rms_smoother - inputPower) * comp.rms_smoothing_coeff + inputPower

/-- `envelope_sqrt` of `ProcessCompressorBand`: the square root of the
smoothed RMS, with the source's (vacuous over the reals) negative-value
flip kept verbatim. -/
def envelopeSqrtOf (comp : CompressorState) (inputPower : ℝ) : ℝ :=
  let s := Real.sqrt (mainPathSmoothedRms comp inputPower)
  if s < 0 then -s else s

/-- `max_reduction` of the main path of `ProcessCompressorBand`: the
log-domain input level over the threshold, floored at zero. -/
def mainPathMaxReduction (comp : CompressorState) (inputPower : ℝ) : ℝ :=
  max 0 (Real.log (envelopeSqrtOf comp inputPower + 1e-30) * LOG_SCALE_FACTOR
          - comp.threshold)

/-- `compressed_level` of the main (ratio_state <= NEGATIVE_THRESHOLD) path
of `ProcessCompressorBand`: log-domain level over threshold, blended toward
the previous `gain_reduction` with the attack coefficient when rising and
the release coefficient when falling. -/
def mainPathCompressedLevel (comp : CompressorState) (inputPower : ℝ) : ℝ :=
  let max_reduction := mainPathMaxReduction comp inputPower
  let compression_coeff :=
    if max_reduction ≤ comp.gain_reduction then comp.release_coeff else comp.attack_coeff
  (comp.gain_reduction - max_reduction) * compression_coeff + max_reduction

/-- `processed_input` of the alternative (linear/expander) path of
`ProcessCompressorBand`: knee-blended below the linear threshold
(`exp(log_envelope * timeConstant)`), linear above it. -/
def linearProcessedInput (comp : CompressorState) (inputPower timeConstant : ℝ) : ℝ :=
  let linear_threshold := Real.exp (comp.log_envelope * timeConstant)
  if envelopeSqrtOf comp inputPower ≤ linear_threshold then
    comp.knee_coeff * linear_threshold
  else
    comp.linear_coeff * (envelopeSqrtOf comp inputPower - linear_threshold) + linear_threshold

/-- `threshold_diff` of the alternative path: the log-domain processed level
minus the threshold. -/
def linearThresholdDiff (comp : CompressorState) (inputPower timeConstant : ℝ) : ℝ :=
  Real.log (linearProcessedInput comp inputPower timeConstant + 1e-30) * LOG_SCALE_FACTOR
    - comp.threshold

/-- `ProcessCompressorBand(comp, inputPower, outputLevel, bandGain,
timeConstant)`: returns the updated state and the returned
`final_gain_reduction * outputLevel * bandGain`. -/
def ProcessCompressorBand (comp : CompressorState)
    (inputPower outputLevel bandGain timeConstant : ℝ) : CompressorState × ℝ :=
  let rms := mainPathSmoothedRms comp inputPower
  -- the source computes `envelope_exp` and `envelope_sqrt` here; they enter
  -- the branches through `mainPathCompressedLevel` / `linearProcessedInput`
  if comp.ratio_state ≤ NEGATIVE_THRESHOLD then
    -- main compression path
    let compressed := mainPathCompressedLevel comp inputPower
    if compressed ≤ comp.threshold then
      -- below threshold: upward compression / expansion
      let fg0 := Real.exp ((comp.release_time - UNITY_GAIN) * compressed * timeConstant)
      let fg := if fg0 ≤ MIN_GAIN_THRESHOLD then MIN_GAIN_THRESHOLD else fg0
      ({ comp with
          rms_smoother := rms
          gain_reduction := compressed
          envelope_output := fg }, fg * outputLevel * bandGain)
    else
      -- above threshold: downward compression
      let downward_gain := (compressed - comp.threshold) * timeConstant
      let gain_multiplier := Real.exp downward_gain
      let upward_factor := gain_multiplier * comp.upward_ratio
      let fg := Real.exp (if upward_factor ≤ MaxCompressionRatio
          then upward_factor * timeConstant else MaxCompressionRatio * timeConstant)
      ({ comp with
          rms_smoother := rms
          gain_reduction := compressed
          processed_envelope := gain_multiplier
          envelope_output := fg }, fg * outputLevel * bandGain)
  else
    -- alternative (linear/expander) path
    let processed_input := linearProcessedInput comp inputPower timeConstant
    let final_level := if processed_input ≥ 1e-30 then processed_input else 1e-30
    let log_final := Real.log (final_level + 1e-30) * LOG_SCALE_FACTOR
    let threshold_diff := linearThresholdDiff comp inputPower timeConstant
    if threshold_diff ≤ 0 then
      -- below threshold: expansion / upward compression
      let fg0 := Real.exp ((comp.release_time - UNITY_GAIN) * threshold_diff * timeConstant)
      let fg := if fg0 ≤ MIN_GAIN_THRESHOLD then MIN_GAIN_THRESHOLD else fg0
      ({ comp with
          rms_smoother := rms
          log_envelope := log_final
          processed_envelope := Real.exp (threshold_diff * timeConstant)
          envelope_output := fg }, fg * outputLevel * bandGain)
    else
      -- above threshold: standard compression
      let fg := if threshold_diff ≤ -NEGATIVE_THRESHOLD
          then Real.exp (threshold_diff * timeConstant) else MIN_GAIN_THRESHOLD
      ({ comp with
          rms_smoother := rms
          log_envelope := log_final
          envelope_output := fg }, fg * outputLevel * bandGain)

-- ===========================================================================
-- Main plugin state (ott_plugin.h)
-- ===========================================================================

/-- `OTTPlugin` struct from ott_plugin.h.  The preset blob (`presetData`,
`currentPresetSlot` aside) is not part of the modelled state; smoothers are
the two-float cells `[current_value, smoothing_coefficient]`. -/
structure OTTPlugin where
  bypass : Bool
  advancedMode : Bool
  needsUpdate : Bool
  inputChannels : ℕ
  outputChannels : ℕ
  inputChannelIndex : ℕ
  outputChannelIndex : ℕ
  peakEnvelopeLeft : ℝ
  peakEnvelopeRight : ℝ
  depth : ℝ
  timeControl : ℝ
  upwardRatioRaw : ℝ
  upwardRatio : ℝ
  downwardRatioRaw : ℝ
  downwardRatio : ℝ
  currentGain : ℝ
  finalGain : ℝ
  bandControls : ℕ → ℝ
  bandGains : ℕ → ℝ
  bandGainsDoubled : ℕ → ℝ
  switches : ℕ → Bool
  additionalControl1 : ℝ
  additionalControl2 : ℝ
  depthSmoother : ℝ × ℝ
  upwardSmoother : ℝ × ℝ
  outputSmoother : ℝ × ℝ
  crossoverFilters : ℕ → BiquadFilter
  bandBuffers : ℕ → ℕ → ℝ
  delayBuffers : ℕ → ℕ → ℝ
  compressorLow : CompressorState
  compressorMid : CompressorState
  compressorHigh : CompressorState
  bufferIndex : ℕ
  bufferOffset : ℕ
  writeIndex : ℕ
  lowBandGain : ℝ
  midBandGain : ℝ
  highBandGain : ℝ
  compressorStates : ℕ → ℝ
  currentPresetSlot : ℕ

-- ===========================================================================
-- Parameter unit (ott_parameters.c)
-- ===========================================================================

/-- `CalculateCompressionRatio`: the piecewise VST-value-to-ratio map. -/
def CalculateCompressionRatio (vstValue : ℝ) : ℝ :=
  if 0.5 < vstValue then (vstValue - 0.5) * 16.0 + 1.0 else vstValue * 2.0

/-- `ConvertBooleanParameter`: 0.0 is false, anything else true. -/
def ConvertBooleanParameter (vstValue : ℝ) : Bool :=
  if vstValue = 0 then false else true

/-- The clamp performed by `OTT_SetParameter`:
`fmaxf(0.0f, fminf(1.0f, value))`. -/
def clamp01 (v : ℝ) : ℝ := max 0 (min 1 v)

/-- `OTT_SetParameter(plugin, parameterIndex, value)`.  The switch over the
20 indices; out-of-range indices return the state unchanged.  The parallel
write into the preset blob is outside the modelled state. -/
def OTT_SetParameter (p : OTTPlugin) (parameterIndex : ℤ) (value : ℝ) : OTTPlugin :=
  if parameterIndex < 0 ∨ 19 < parameterIndex then p
  else
    let v := clamp01 value
    if parameterIndex = 0 then { p with depth := v, needsUpdate := true }
    else if parameterIndex = 1 then { p with timeControl := v, needsUpdate := true }
    else if parameterIndex = 2 then
      { p with upwardRatioRaw := v, upwardRatio := CalculateCompressionRatio v,
               needsUpdate := true }
    else if parameterIndex = 3 then
      { p with downwardRatioRaw := v, downwardRatio := CalculateCompressionRatio v,
               needsUpdate := true }
    else if parameterIndex = 4 then
      { p with advancedMode := ConvertBooleanParameter v, needsUpdate := true }
    else if 5 ≤ parameterIndex ∧ parameterIndex ≤ 7 then
      { p with bandControls := Function.update p.bandControls (parameterIndex - 5).toNat v,
               needsUpdate := true }
    else if 8 ≤ parameterIndex ∧ parameterIndex ≤ 10 then
      let gainIndex := (parameterIndex - 8).toNat
      { p with bandGains := Function.update p.bandGains gainIndex v
               bandGainsDoubled := Function.update p.bandGainsDoubled gainIndex (v * 2.0)
               lowBandGain := if gainIndex = 0 then v else p.lowBandGain
               midBandGain := if gainIndex = 1 then v else p.midBandGain
               highBandGain := if gainIndex = 2 then v else p.highBandGain
               needsUpdate := true }
    else if 11 ≤ parameterIndex ∧ parameterIndex ≤ 16 then
      { p with switches := Function.update p.switches (parameterIndex - 11).toNat
                 (ConvertBooleanParameter v),
               needsUpdate := true }
    else if parameterIndex = 17 then { p with additionalControl1 := v, needsUpdate := true }
    else if parameterIndex = 18 then { p with additionalControl2 := v, needsUpdate := true }
    else { p with bypass := ConvertBooleanParameter v }

/-- `OTT_GetParameter(plugin, parameterIndex)`: current value in VST format. -/
def OTT_GetParameter (p : OTTPlugin) (parameterIndex : ℤ) : ℝ :=
  if parameterIndex = 0 then p.depth
  else if parameterIndex = 1 then p.timeControl
  else if parameterIndex = 2 then p.upwardRatioRaw
  else if parameterIndex = 3 then p.downwardRatioRaw
  else if parameterIndex = 4 then (if p.advancedMode then 1 else 0)
  else if 5 ≤ parameterIndex ∧ parameterIndex ≤ 7 then
    p.bandControls (parameterIndex - 5).toNat
  else if 8 ≤ parameterIndex ∧ parameterIndex ≤ 10 then
    p.bandGains (parameterIndex - 8).toNat
  else if 11 ≤ parameterIndex ∧ parameterIndex ≤ 16 then
    (if p.switches (parameterIndex - 11).toNat then 1 else 0)
  else if parameterIndex = 17 then p.additionalControl1
  else if parameterIndex = 18 then p.additionalControl2
  else if parameterIndex = 19 then (if p.bypass then 1 else 0)
  else 0

-- ===========================================================================
-- OTT_Reset (ott_main.c)
-- ===========================================================================

/-- `OTT_Reset`: reinitialize all six crossover filters and the three
compressors, clear the peak envelopes, zero all band and delay buffers,
reset the two cursors, and set `needsUpdate`.  Parameter fields are not
touched. -/
def OTT_Reset (p : OTTPlugin) : OTTPlugin :=
  { p with
    crossoverFilters := fun _ => InitializeBiquadFilter
    compressorLow := InitializeCompressor
    compressorMid := InitializeCompressor
    compressorHigh := InitializeCompressor
    peakEnvelopeLeft := 0
    peakEnvelopeRight := 0
    bandBuffers := fun _ _ => 0
    delayBuffers := fun _ _ => 0
    bufferIndex := 0
    writeIndex := 0
    needsUpdate := true }

-- ===========================================================================
-- Processing engine (ott_processing.c)
-- ===========================================================================

/-- Read `inputs[j]` for a channel index `j` that the engine only ever
instantiates with 0 or 1; a missing buffer reads as silence (the C code never
dereferences a null channel here because of the collapse logic and the
OTT_Process guards). -/
def readChan (ins : Option Buf × Option Buf) (j : ℕ) : Buf :=
  if j = 0 then ins.1.getD (fun _ => 0) else ins.2.getD (fun _ => 0)

/-- Write sample `i` of `outputs[j]` (`j` is 0 or 1 in every engine state);
writing to an absent buffer is a no-op. -/
def writeChan (outs : Option Buf × Option Buf) (j : ℕ) (i : ℕ) (v : ℝ) :
    Option Buf × Option Buf :=
  if j = 0 then (outs.1.map (fun b => Function.update b i v), outs.2)
  else (outs.1, outs.2.map (fun b => Function.update b i v))

/-- The bypass copy loop for one channel: `outputs[ch][i] = inputs[ch][i]`
for `0 <= i < n`, performed only when both pointers are present. -/
def bypassCopy (n : ℕ) (inb outb : Option Buf) : Option Buf :=
  match inb, outb with
  | some a, some b => some (fun j => if j < n then a j else b j)
  | _, ob => ob

/-- One peak-envelope update: instant rise, `ENVELOPE_DECAY_RATE` linear
decay floored at zero. -/
def peakStep (env s : ℝ) : ℝ :=
  if s < env then
    (if env - ENVELOPE_DECAY_RATE < 0 then 0 else env - ENVELOPE_DECAY_RATE)
  else s

/-- The peak-detection pass over the first `n` samples of both channels
(the source's unrolled and scalar loops both apply `peakStep` to every
sample in increasing order). -/
def peakPhase (in0 inR : Buf) (e : ℝ × ℝ) : ℕ → ℝ × ℝ
  | 0 => e
  | k + 1 =>
    let e1 := peakPhase in0 inR e k
    (peakStep e1.1 (in0 k), peakStep e1.2 (inR k))

/-- `bufferIndex++; if (bufferIndex >= DELAY_BUFFER_SIZE) bufferIndex = 0;` -/
def wrapInc (k : ℕ) : ℕ := if DELAY_BUFFER_SIZE ≤ k + 1 then 0 else k + 1

/-- The common tail of one filtering-pass iteration: store the six band
values into `bandBuffers[band][sampleIdx]`, copy them (plus the two raw
input samples) into `delayBuffers[.][bufferIndex]`, and advance the wrapped
cursor. -/
def storeAndAdvance (in0 inR : Buf) (i : ℕ) (bandVal : ℕ → ℝ) (p : OTTPlugin) :
    OTTPlugin :=
  { p with
    bandBuffers := fun b j => if j = i then bandVal b else p.bandBuffers b j
    delayBuffers := fun b j =>
      if j = p.bufferIndex then
        (if b = 6 then in0 i else if b = 7 then inR i else bandVal b)
      else p.delayBuffers b j
    bufferIndex := wrapInc p.bufferIndex }

/-- One iteration of the simple-mode filtering loop of `OTT_ProcessAudio`
(bands 2/3 of `bandBuffers` are not recomputed; the delay copy still reads
their stale contents, exactly as in the source). -/
def simpleModeStep (in0 inR : Buf) (p : OTTPlugin) (i : ℕ) : OTTPlugin :=
  let smoothedDepth := (p.depth - p.depthSmoother.1) * p.depthSmoother.2 + p.depthSmoother.1
  let smoothedUpward :=
    (p.upwardRatio - p.upwardSmoother.1) * p.upwardSmoother.2 + p.upwardSmoother.1
  let processingGain := smoothedDepth * COMPRESSION_SCALING + 1.0
  let leftProcessingGain := smoothedUpward * in0 i
  let rightProcessingGain := smoothedUpward * inR i
  let f0 := ProcessBiquadFilter (p.crossoverFilters 0) leftProcessingGain
  let f1 := ProcessBiquadFilter (p.crossoverFilters 1) rightProcessingGain
  let f2 := ProcessBiquadFilter (p.crossoverFilters 2) (GetBiquadLowpass f0)
  let f3 := ProcessBiquadFilter (p.crossoverFilters 3) (GetBiquadLowpass f1)
  let f4 := ProcessBiquadFilter (p.crossoverFilters 4) leftProcessingGain
  let f5 := ProcessBiquadFilter (p.crossoverFilters 5) rightProcessingGain
  let bandVal : ℕ → ℝ := fun b =>
    if b = 0 then GetBiquadLowpass f2 * processingGain
    else if b = 1 then GetBiquadLowpass f3 * processingGain
    else if b = 4 then GetBiquadHighpass f4 * processingGain
    else if b = 5 then GetBiquadHighpass f5 * processingGain
    else p.bandBuffers b i
  storeAndAdvance in0 inR i bandVal
    { p with
      depthSmoother := (smoothedDepth, p.depthSmoother.2)
      upwardSmoother := (smoothedUpward, p.upwardSmoother.2)
      currentGain := smoothedUpward
      crossoverFilters := fun k =>
        if k = 0 then f0 else if k = 1 then f1 else if k = 2 then f2
        else if k = 3 then f3 else if k = 4 then f4 else if k = 5 then f5
        else p.crossoverFilters k }

/-- One iteration of the advanced-mode filtering loop of `OTT_ProcessAudio`
(`upwardGain1/2` are computed but unused in the source; the six filters all
take the gain-scaled raw inputs). -/
def advancedModeStep (in0 inR : Buf) (p : OTTPlugin) (i : ℕ) : OTTPlugin :=
  let smoothedDepth := (p.depth - p.depthSmoother.1) * p.depthSmoother.2 + p.depthSmoother.1
  let smoothedUpward :=
    (p.upwardRatio - p.upwardSmoother.1) * p.upwardSmoother.2 + p.upwardSmoother.1
  let processingGain := smoothedDepth * COMPRESSION_SCALING + 1.0
  let _upwardGain1 := smoothedUpward * UPWARD_MULT_1 + 1.0
  let _upwardGain2 := smoothedUpward * UPWARD_MULT_2 + 1.0
  let leftInput := in0 i * smoothedUpward
  let rightInput := inR i * smoothedUpward
  let f0 := ProcessBiquadFilter (p.crossoverFilters 0) leftInput
  let f1 := ProcessBiquadFilter (p.crossoverFilters 1) rightInput
  let f2 := ProcessBiquadFilter (p.crossoverFilters 2) leftInput
  let f3 := ProcessBiquadFilter (p.crossoverFilters 3) rightInput
  let f4 := ProcessBiquadFilter (p.crossoverFilters 4) leftInput
  let f5 := ProcessBiquadFilter (p.crossoverFilters 5) rightInput
  let bandVal : ℕ → ℝ := fun b =>
    if b = 0 then GetBiquadLowpass f0 * processingGain
    else if b = 1 then GetBiquadLowpass f1 * processingGain
    else if b = 2 then GetBiquadHighpass f2 * processingGain
    else if b = 3 then GetBiquadHighpass f3 * processingGain
    else if b = 4 then GetBiquadHighpass f4 * processingGain
    else if b = 5 then GetBiquadHighpass f5 * processingGain
    else p.bandBuffers b i
  storeAndAdvance in0 inR i bandVal
    { p with
      depthSmoother := (smoothedDepth, p.depthSmoother.2)
      upwardSmoother := (smoothedUpward, p.upwardSmoother.2)
      currentGain := smoothedUpward
      crossoverFilters := fun k =>
        if k = 0 then f0 else if k = 1 then f1 else if k = 2 then f2
        else if k = 3 then f3 else if k = 4 then f4 else if k = 5 then f5
        else p.crossoverFilters k }

/-- The filtering pass: `k` iterations of the per-sample step, samples
`0, 1, ..., k-1` in order. -/
def filterPhase (step : OTTPlugin → ℕ → OTTPlugin) (p : OTTPlugin) : ℕ → OTTPlugin
  | 0 => p
  | k + 1 => step (filterPhase step p k) k

/-- `int readPos = currentBufferPos - numSamples; if (readPos < 0) readPos +=
DELAY_BUFFER_SIZE;` -/
def readPosCalc (cur n : ℕ) : ℕ :=
  let r : ℤ := (cur : ℤ) - (n : ℤ)
  if r < 0 then (r + (DELAY_BUFFER_SIZE : ℤ)).toNat else r.toNat

/-- One iteration of the compression/output loop of `OTT_ProcessAudio`:
smooth the output gain, read the six band samples from the delay buffers at
the read cursor, run the three band compressors, mix, write both output
samples (the second through `outputChannelIndex`), and advance the wrapped
read cursor (`writeIndex`). -/
def compressionStep (s : OTTPlugin × (Option Buf × Option Buf)) (i : ℕ) :
    OTTPlugin × (Option Buf × Option Buf) :=
  let p := s.1
  let outs := s.2
  let smoothedOutput :=
    (p.finalGain - p.outputSmoother.1) * p.outputSmoother.2 + p.outputSmoother.1
  let readIndex := p.writeIndex
  let lowLeft := p.delayBuffers 0 readIndex
  let lowRight := p.delayBuffers 1 readIndex
  let midLeft := p.delayBuffers 2 readIndex
  let midRight := p.delayBuffers 3 readIndex
  let highLeft := p.delayBuffers 4 readIndex
  let highRight := p.delayBuffers 5 readIndex
  let lowPower := lowLeft * lowLeft + lowRight * lowRight + NOISE_FLOOR
  let midPower := midLeft * midLeft + midRight * midRight + NOISE_FLOOR
  let highPower := highLeft * highLeft + highRight * highRight + NOISE_FLOOR
  let rLow := ProcessCompressorBand p.compressorLow lowPower smoothedOutput
    p.lowBandGain ENVELOPE_TIME_CONSTANT
  let rMid := ProcessCompressorBand p.compressorMid midPower smoothedOutput
    p.midBandGain ENVELOPE_TIME_CONSTANT
  let rHigh := ProcessCompressorBand p.compressorHigh highPower smoothedOutput
    p.highBandGain ENVELOPE_TIME_CONSTANT
  let finalLeft :=
    (lowLeft * rLow.2 + midLeft * rMid.2 + highLeft * rHigh.2) * smoothedOutput
  let finalRight :=
    (lowRight * rLow.2 + midRight * rMid.2 + highRight * rHigh.2) * smoothedOutput
  let outs1 := writeChan outs 0 i finalLeft
  let outs2 := writeChan outs1 p.outputChannelIndex i finalRight
  ({ p with
      outputSmoother := (smoothedOutput, p.outputSmoother.2)
      finalGain := smoothedOutput
      compressorLow := rLow.1
      compressorMid := rMid.1
      compressorHigh := rHigh.1
      writeIndex := wrapInc p.writeIndex }, outs2)

/-- The compression/output pass: `k` iterations of `compressionStep`. -/
def compPhase (s : OTTPlugin × (Option Buf × Option Buf)) :
    ℕ → OTTPlugin × (Option Buf × Option Buf)
  | 0 => s
  | k + 1 => compressionStep (compPhase s k) k

/-- The mono-collapse channel setup at the top of the non-bypass path of
`OTT_ProcessAudio`: each channel index is reset to 0 when the corresponding
second buffer is absent. -/
def channelSetup (p : OTTPlugin) (ins outs : Option Buf × Option Buf) : OTTPlugin :=
  let p1 := if p.inputChannels = 2 ∧ ins.2.isNone then
      { p with inputChannelIndex := 0 } else p
  if p1.outputChannels = 2 ∧ outs.2.isNone then
    { p1 with outputChannelIndex := 0 } else p1

/-- The filtering pass followed by the compression/output pass of
`OTT_ProcessAudio` (everything after the peak-detection loop when
`sampleCount > 0`), including the final `compressorStates` metering
stores. -/
def processCore (p3 : OTTPlugin) (in0 inR : Buf) (outs : Option Buf × Option Buf)
    (n : ℕ) : OTTPlugin × (Option Buf × Option Buf) :=
  let step := if p3.advancedMode then advancedModeStep in0 inR
    else simpleModeStep in0 inR
  let p4 := filterPhase step p3 n
  let readPos := readPosCalc p4.bufferIndex n
  let p5 := { p4 with writeIndex := readPos }
  let r := compPhase (p5, outs) n
  let p6 := r.1
  ({ p6 with compressorStates := fun k =>
        if k = 0 then p6.compressorLow.envelope_output * p6.lowBandGain
        else if k = 1 then p6.compressorMid.envelope_output * p6.midBandGain
        else if k = 2 then p6.compressorHigh.envelope_output * p6.highBandGain
        else if k = 3 then p6.compressorLow.rms_smoother
        else if k = 4 then p6.compressorMid.rms_smoother
        else if k = 5 then p6.compressorHigh.rms_smoother
        else p6.compressorStates k }, r.2)

/-- `OTT_ProcessAudio(plugin, inputs, outputs, sampleCount)`. -/
def OTT_ProcessAudio (p : OTTPlugin) (ins outs : Option Buf × Option Buf)
    (sampleCount : ℤ) : OTTPlugin × (Option Buf × Option Buf) :=
  let n := sampleCount.toNat
  if p.bypass then
    (p, (bypassCopy n ins.1 outs.1, bypassCopy n ins.2 outs.2))
  else
    let p2 := channelSetup p ins outs
    let in0 := readChan ins 0
    let inR := readChan ins p2.inputChannelIndex
    let env := peakPhase in0 inR (p2.peakEnvelopeLeft, p2.peakEnvelopeRight) n
    let p3 := { p2 with peakEnvelopeLeft := env.1, peakEnvelopeRight := env.2 }
    if sampleCount ≤ 0 then (p3, outs)
    else processCore p3 in0 inR outs n

/-- `OTT_Process(plugin, inputs, outputs, sampleCount)` from ott_main.c:
validates the plugin pointer, both array pointers, the first channel of
each array, and a positive sample count, then delegates to
`OTT_ProcessAudio`; any failed check returns with nothing changed. -/
def OTT_Process (plugin : Option OTTPlugin)
    (inputs outputs : Option (Option Buf × Option Buf)) (sampleCount : ℤ) :
    Option OTTPlugin × Option (Option Buf × Option Buf) :=
  match plugin, inputs, outputs with
  | some p, some ins, some outs =>
    if sampleCount ≤ 0 then (some p, some outs)
    else if ins.1.isNone ∨ outs.1.isNone then (some p, some outs)
    else
      let r := OTT_ProcessAudio p ins outs sampleCount
      (some r.1, some r.2)
  | pl, _, os => (pl, os)

-- ===========================================================================
-- Abstractions and concrete states used by the theorems
-- ===========================================================================

/-- What both per-sample filtering steps guarantee about the circular-buffer
bookkeeping: the shared cursor advances by one (wrapped), the output channel
index is untouched, the delay buffers receive exactly one write at the old
cursor (bands 0-5 copy `bandBuffers[band][i]`, 6/7 the raw inputs), and the
band buffers are written only at index `i`. -/
def FilterStepSpec (in0 inR : Buf) (step : OTTPlugin → ℕ → OTTPlugin) : Prop :=
  ∀ p i,
    (step p i).bufferIndex = wrapInc p.bufferIndex ∧
    (step p i).outputChannelIndex = p.outputChannelIndex ∧
    (∀ b j, (step p i).delayBuffers b j =
      if j = p.bufferIndex then
        (if b = 6 then in0 i else if b = 7 then inR i else (step p i).bandBuffers b i)
      else p.delayBuffers b j) ∧
    (∀ b j, j ≠ i → (step p i).bandBuffers b j = p.bandBuffers b j)

/-- A concrete engine state mirroring the post-`OTT_Initialize` fields
(sans the tangent-based coefficient setup, which no claim depends on):
channel indices 0, bypass off, simple mode, default parameters, cleared
buffers and cursors. -/
def testPlugin : OTTPlugin :=
  { bypass := false, advancedMode := false, needsUpdate := true,
    inputChannels := 2, outputChannels := 2,
    inputChannelIndex := 0, outputChannelIndex := 0,
    peakEnvelopeLeft := 0, peakEnvelopeRight := 0,
    depth := 0.5, timeControl := 0.3,
    upwardRatioRaw := 0.6, upwardRatio := CalculateCompressionRatio 0.6,
    downwardRatioRaw := 0.7, downwardRatio := CalculateCompressionRatio 0.7,
    currentGain := 0, finalGain := 1,
    bandControls := fun _ => 0.5, bandGains := fun _ => 0.5,
    bandGainsDoubled := fun _ => 1,
    switches := fun _ => false,
    additionalControl1 := 0.5, additionalControl2 := 0.5,
    depthSmoother := (0, 0.01), upwardSmoother := (0, 0.01),
    outputSmoother := (1, 0.005),
    crossoverFilters := fun _ => InitializeBiquadFilter,
    bandBuffers := fun _ _ => 0, delayBuffers := fun _ _ => 0,
    compressorLow := InitializeCompressor, compressorMid := InitializeCompressor,
    compressorHigh := InitializeCompressor,
    bufferIndex := 0, bufferOffset := 0, writeIndex := 0,
    lowBandGain := 0.5, midBandGain := 0.5, highBandGain := 0.5,
    compressorStates := fun _ => 0, currentPresetSlot := 0 }

/-- A state whose first crossover filter has a configured (nonzero)
coefficient, exhibiting that `OTT_Reset` does not preserve coefficients. -/
def configuredPlugin : OTTPlugin :=
  { testPlugin with
    crossoverFilters := fun _ => { InitializeBiquadFilter with coeff_a1 := 2 } }

/-- A compressor configured through the source's own
`SetCompressorParameters` so that the main path is selected
(`ratio_state = -1 <= NEGATIVE_THRESHOLD`) and all smoothing/blend
coefficients are zero (attack = release = 0), making every call settled:
the RMS smoother and the gain-reduction blend reproduce their steady-state
values in a single call. -/
def mainPathSettledComp : CompressorState :=
  SetCompressorParameters InitializeCompressor (-1) (-1) 0 0 1

/-- The all-zero channel buffer, used as a concrete witness input. -/
def zeroBuf : Buf := fun _ => 0

/-- A main-path compressor with attack and release coefficients 1, for which
the blended `compressed_level` equals the stored `gain_reduction` (0) at
every input power, making the downward-branch condition immediate. -/
def monotoneWitnessComp : CompressorState :=
  SetCompressorParameters InitializeCompressor (-1) (-1) 1 1 1

-- ===========================================================================
-- Theorems
-- ===========================================================================

/-- Branch lemma: main path, level at or below threshold (upward
compression / expansion): the stored gain is the floored exponential. -/
theorem PCB_main_below_env (comp : CompressorState) (P oL bG tc : ℝ)
    (hmain : comp.ratio_state ≤ NEGATIVE_THRESHOLD)
    (hbelow : mainPathCompressedLevel comp P ≤ comp.threshold) :
    ((ProcessCompressorBand comp P oL bG tc).1).envelope_output =
      (if Real.exp ((comp.release_time - UNITY_GAIN) * mainPathCompressedLevel comp P * tc)
            ≤ MIN_GAIN_THRESHOLD
       then MIN_GAIN_THRESHOLD
       else Real.exp ((comp.release_time - UNITY_GAIN) * mainPathCompressedLevel comp P * tc)) := by
  simp only [ProcessCompressorBand]
  rw [if_pos hmain, if_pos hbelow]

/-- Branch lemma: main path, level above threshold (downward compression):
the stored gain is `exp(min(exp((level-threshold)*tc)*upward_ratio, maxRatio)
* tc)`. -/
theorem PCB_main_above_env (comp : CompressorState) (P oL bG tc : ℝ)
    (hmain : comp.ratio_state ≤ NEGATIVE_THRESHOLD)
    (habove : comp.threshold < mainPathCompressedLevel comp P) :
    ((ProcessCompressorBand comp P oL bG tc).1).envelope_output =
      Real.exp
        (if Real.exp ((mainPathCompressedLevel comp P - comp.threshold) * tc) * comp.upward_ratio
              ≤ MaxCompressionRatio
         then Real.exp ((mainPathCompressedLevel comp P - comp.threshold) * tc)
                * comp.upward_ratio * tc
         else MaxCompressionRatio * tc) := by
  simp only [ProcessCompressorBand]
  rw [if_pos hmain, if_neg (not_le.2 habove)]

/-- Branch lemma: linear/expander path, below threshold. -/
theorem PCB_linear_below_env (comp : CompressorState) (P oL bG tc : ℝ)
    (hlin : ¬ comp.ratio_state ≤ NEGATIVE_THRESHOLD)
    (htd : linearThresholdDiff comp P tc ≤ 0) :
    ((ProcessCompressorBand comp P oL bG tc).1).envelope_output =
      (if Real.exp ((comp.release_time - UNITY_GAIN) * linearThresholdDiff comp P tc * tc)
            ≤ MIN_GAIN_THRESHOLD
       then MIN_GAIN_THRESHOLD
       else Real.exp ((comp.release_time - UNITY_GAIN) * linearThresholdDiff comp P tc * tc)) := by
  simp only [ProcessCompressorBand]
  rw [if_neg hlin, if_pos htd]

/-- Branch lemma: linear/expander path, above threshold. -/
theorem PCB_linear_above_env (comp : CompressorState) (P oL bG tc : ℝ)
    (hlin : ¬ comp.ratio_state ≤ NEGATIVE_THRESHOLD)
    (htd : 0 < linearThresholdDiff comp P tc) :
    ((ProcessCompressorBand comp P oL bG tc).1).envelope_output =
      (if linearThresholdDiff comp P tc ≤ -NEGATIVE_THRESHOLD
       then Real.exp (linearThresholdDiff comp P tc * tc)
       else MIN_GAIN_THRESHOLD) := by
  simp only [ProcessCompressorBand]
  rw [if_neg hlin, if_neg (not_le.2 htd)]

/-- C6: the Upward/Downward Ratio parameter mapping is piecewise:
`v <= 0.5` maps to expansion ratio `v*2`, `v > 0.5` to compression ratio
`(v-0.5)*16+1`; in particular 1.0 maps to 9.0 and 0.0 to 0.0. -/
theorem C6_ratio_mapping (v : ℝ) :
    (v ≤ 0.5 → CalculateCompressionRatio v = v * 2.0) ∧
    (0.5 < v → CalculateCompressionRatio v = (v - 0.5) * 16.0 + 1.0) ∧
    CalculateCompressionRatio 1 = 9 ∧ CalculateCompressionRatio 0 = 0 := by
  refine ⟨fun h => ?_, fun h => ?_, ?_, ?_⟩
  · rw [CalculateCompressionRatio, if_neg (not_lt.2 h)]
  · rw [CalculateCompressionRatio, if_pos h]
  · rw [CalculateCompressionRatio, if_pos (by norm_num)]; norm_num
  · rw [CalculateCompressionRatio, if_neg (by norm_num)]; norm_num

/-- Witness for C6 at the concrete inputs 1/4 (expansion region) and 1
(compression region). -/
theorem C6_witness :
    CalculateCompressionRatio (1/4 : ℝ) = 1/2 ∧ CalculateCompressionRatio 1 = 9 := by
  constructor
  · have h := (C6_ratio_mapping (1/4 : ℝ)).1 (by norm_num)
    rw [h]; norm_num
  · exact (C6_ratio_mapping 1).2.2.1

/-- C2 counterexample: index 4 (Advanced Mode) does not round-trip the
clamped raw value: setting 0.3 reads back 1.0, because the setter stores
only the boolean conversion and the getter re-derives 0/1 from it. -/
theorem C2_counterexample :
    OTT_GetParameter (OTT_SetParameter testPlugin 4 (3/10)) 4 = 1 ∧
    clamp01 (3/10 : ℝ) = 3/10 ∧
    OTT_GetParameter (OTT_SetParameter testPlugin 4 (3/10)) 4 ≠ clamp01 (3/10) := by
  have hclamp : clamp01 (3/10 : ℝ) = 3/10 := by
    rw [clamp01, min_eq_right (by norm_num), max_eq_right (by norm_num)]
  have hget : OTT_GetParameter (OTT_SetParameter testPlugin 4 (3/10)) 4 = 1 := by
    rw [OTT_SetParameter, if_neg (by norm_num), if_neg (by norm_num),
      if_neg (by norm_num), if_neg (by norm_num), if_neg (by norm_num),
      if_pos rfl, hclamp]
    rw [OTT_GetParameter]
    norm_num [ConvertBooleanParameter]
  refine ⟨hget, hclamp, ?_⟩
  rw [hget, hclamp]; norm_num

/-- C2 amended: for indices 0-19, `getParameter` after `setParameter`
returns the clamped raw value for the non-boolean indices, but for the
boolean indices (4, 11-16, 19) it returns 1.0 when the clamped value is
nonzero and 0.0 otherwise. -/
theorem C2_roundtrip_amended (p : OTTPlugin) (i : ℤ) (v : ℝ)
    (h0 : 0 ≤ i) (h19 : i ≤ 19) :
    OTT_GetParameter (OTT_SetParameter p i v) i =
      if i = 4 ∨ (11 ≤ i ∧ i ≤ 16) ∨ i = 19
      then (if clamp01 v = 0 then 0 else 1) else clamp01 v := by
  interval_cases i <;>
    · simp only [OTT_SetParameter, OTT_GetParameter, ConvertBooleanParameter]
      norm_num [Function.update]

/-- Witness for C2's amended round-trip at index 0 and value 0.7. -/
theorem C2_witness :
    OTT_GetParameter (OTT_SetParameter testPlugin 0 (7/10)) 0 = clamp01 (7/10) := by
  have h := C2_roundtrip_amended testPlugin 0 (7/10) (by norm_num) (by norm_num)
  simpa using h

/-- C9: `OTT_Process` with a null plugin, null input/output array, null
first-channel buffer, or non-positive sample count returns with the state
and the output buffers unchanged, and `OTT_SetParameter` with an index
outside 0-19 changes nothing; invalid arguments are silently ignored. -/
theorem C9_invalid_noop :
    (∀ ins outs n, OTT_Process none ins outs n = (none, outs)) ∧
    (∀ pl outs n, OTT_Process pl none outs n = (pl, outs)) ∧
    (∀ pl ins n, OTT_Process pl ins none n = (pl, none)) ∧
    (∀ p ins outs n, n ≤ 0 →
      OTT_Process (some p) (some ins) (some outs) n = (some p, some outs)) ∧
    (∀ p ins outs n, ins.1 = none ∨ outs.1 = none →
      OTT_Process (some p) (some ins) (some outs) n = (some p, some outs)) ∧
    (∀ p i v, i < 0 ∨ 19 < i → OTT_SetParameter p i v = p) := by
  refine ⟨?_, ?_, ?_, ?_, ?_, ?_⟩
  · intro ins outs n; rfl
  · intro pl outs n; cases pl <;> rfl
  · intro pl ins n; cases pl <;> cases ins <;> rfl
  · intro p ins outs n h
    rw [OTT_Process]; simp [h]
  · intro p ins outs n h
    rw [OTT_Process]
    rcases h with h | h <;> split_ifs with h1 h2 <;>
      simp_all [Option.isNone_iff_eq_none]
  · intro p i v h
    rw [OTT_SetParameter, if_pos h]

/-- Witness for C9 at concrete invalid inputs: sample count 0, and the
out-of-range parameter index 20. -/
theorem C9_witness :
    OTT_Process (some testPlugin) (some (some (fun _ => 0), none))
        (some (some (fun _ => 0), some (fun _ => 0))) 0 =
      (some testPlugin, some (some (fun _ => 0), some (fun _ => 0))) ∧
    OTT_SetParameter testPlugin 20 (1/2) = testPlugin := by
  constructor
  · exact C9_invalid_noop.2.2.2.1 testPlugin _ _ 0 (by norm_num)
  · exact C9_invalid_noop.2.2.2.2.2 testPlugin 20 (1/2) (by norm_num)

/-- C4 counterexample: `OTT_Reset` does not leave the biquad coefficients
unchanged: a configured filter coefficient (2) is wiped back to the
pass-through value (0). -/
theorem C4_counterexample :
    ((OTT_Reset configuredPlugin).crossoverFilters 0).coeff_a1 ≠
      (configuredPlugin.crossoverFilters 0).coeff_a1 := by
  simp only [OTT_Reset, configuredPlugin, InitializeBiquadFilter]
  norm_num

/-- C4 amended: `OTT_Reset` reinitializes every crossover filter (zero
delay states and cached values, coefficients reset to pass-through
b0 = 1, b1 = a1 = a2 = b2 = 0, rather than left unchanged), reinitializes
the three compressors (envelope components zero, `envelope_output` unity),
clears the peak envelopes, zeroes all band/delay buffer contents, resets
both cursors, and leaves all 20 parameter values unchanged. -/
theorem C4_reset_amended (p : OTTPlugin) :
    (∀ f, (OTT_Reset p).crossoverFilters f = InitializeBiquadFilter) ∧
    (OTT_Reset p).compressorLow = InitializeCompressor ∧
    (OTT_Reset p).compressorMid = InitializeCompressor ∧
    (OTT_Reset p).compressorHigh = InitializeCompressor ∧
    (OTT_Reset p).peakEnvelopeLeft = 0 ∧
    (OTT_Reset p).peakEnvelopeRight = 0 ∧
    (∀ b j, (OTT_Reset p).bandBuffers b j = 0) ∧
    (∀ b j, (OTT_Reset p).delayBuffers b j = 0) ∧
    (OTT_Reset p).bufferIndex = 0 ∧
    (OTT_Reset p).writeIndex = 0 ∧
    InitializeBiquadFilter.state1 = 0 ∧
    InitializeBiquadFilter.state2 = 0 ∧
    InitializeBiquadFilter.input_store = 0 ∧
    InitializeBiquadFilter.intermediate = 0 ∧
    InitializeBiquadFilter.output = 0 ∧
    InitializeBiquadFilter.processed_input = 0 ∧
    InitializeBiquadFilter.b0 = 1 ∧
    InitializeBiquadFilter.b1 = 0 ∧
    InitializeBiquadFilter.coeff_a1 = 0 ∧
    InitializeBiquadFilter.coeff_a2 = 0 ∧
    InitializeBiquadFilter.coeff_b2 = 0 ∧
    InitializeCompressor.rms_smoother = 0 ∧
    InitializeCompressor.log_envelope = 0 ∧
    InitializeCompressor.gain_reduction = 0 ∧
    InitializeCompressor.envelope_output = 1 ∧
    (∀ i, OTT_GetParameter (OTT_Reset p) i = OTT_GetParameter p i) := by
  refine ⟨fun f => rfl, rfl, rfl, rfl, rfl, rfl, fun b j => rfl, fun b j => rfl,
    rfl, rfl, rfl, rfl, rfl, rfl, rfl, rfl, rfl, rfl, rfl, rfl, rfl,
    rfl, rfl, rfl, ?_, fun i => rfl⟩
  norm_num [InitializeCompressor]

/-- Over the reals `sqrt` is never negative, so the source's defensive
negative flip in `envelope_sqrt` is the square root itself. -/
theorem envelopeSqrtOf_eq (comp : CompressorState) (P : ℝ) :
    envelopeSqrtOf comp P = Real.sqrt (mainPathSmoothedRms comp P) := by
  rw [envelopeSqrtOf]
  exact if_neg (not_lt.2 (Real.sqrt_nonneg _))

/-- `ProcessCompressorBand` never changes the configuration fields, and on
every branch stores the smoothed RMS. -/
theorem PCB_config_preserved (comp : CompressorState) (P oL bG tc : ℝ) :
    ((ProcessCompressorBand comp P oL bG tc).1).threshold = comp.threshold ∧
    ((ProcessCompressorBand comp P oL bG tc).1).ratio_state = comp.ratio_state ∧
    ((ProcessCompressorBand comp P oL bG tc).1).attack_coeff = comp.attack_coeff ∧
    ((ProcessCompressorBand comp P oL bG tc).1).release_coeff = comp.release_coeff ∧
    ((ProcessCompressorBand comp P oL bG tc).1).release_time = comp.release_time ∧
    ((ProcessCompressorBand comp P oL bG tc).1).upward_ratio = comp.upward_ratio ∧
    ((ProcessCompressorBand comp P oL bG tc).1).rms_smoothing_coeff = comp.rms_smoothing_coeff ∧
    ((ProcessCompressorBand comp P oL bG tc).1).rms_smoother = mainPathSmoothedRms comp P := by
  simp only [ProcessCompressorBand]
  split_ifs <;> exact ⟨rfl, rfl, rfl, rfl, rfl, rfl, rfl, rfl⟩

/-- The attack/release blend `(g - m)*coeff(m) + m` is monotone in `m` when
both coefficients lie in `[0, 1]`. -/
theorem blend_mono (g rel att m1 m2 : ℝ)
    (hrel0 : 0 ≤ rel) (hrel1 : rel ≤ 1) (hatt0 : 0 ≤ att) (hatt1 : att ≤ 1)
    (hm : m1 ≤ m2) :
    (g - m1) * (if m1 ≤ g then rel else att) + m1 ≤
      (g - m2) * (if m2 ≤ g then rel else att) + m2 := by
  split_ifs with h1 h2 h2
  · nlinarith [mul_nonneg (sub_nonneg.2 hm) (sub_nonneg.2 hrel1)]
  · push_neg at h2
    have hL : (g - m1) * rel + m1 ≤ g := by
      nlinarith [mul_le_of_le_one_right (sub_nonneg.2 h1) hrel1]
    have hR : g ≤ (g - m2) * att + m2 := by
      nlinarith [mul_nonneg (sub_nonneg.2 h2.le) (sub_nonneg.2 hatt1)]
    linarith
  · exact absurd (le_trans hm h2) h1
  · nlinarith [mul_nonneg (sub_nonneg.2 hm) (sub_nonneg.2 hatt1)]

/-- The floored log-domain over-threshold level is monotone in the input
power. -/
theorem mainPathMaxReduction_mono (comp : CompressorState) (p1 p2 : ℝ)
    (hc0 : 0 ≤ comp.rms_smoothing_coeff) (hc1 : comp.rms_smoothing_coeff ≤ 1)
    (hr0 : 0 ≤ comp.rms_smoother) (hp1 : 0 ≤ p1) (hpp : p1 ≤ p2) :
    mainPathMaxReduction comp p1 ≤ mainPathMaxReduction comp p2 := by
  have hrms1 : 0 ≤ mainPathSmoothedRms comp p1 := by
    rw [mainPathSmoothedRms]
    nlinarith [mul_nonneg hr0 hc0, mul_nonneg hp1 (sub_nonneg.2 hc1)]
  have hrmsmono : mainPathSmoothedRms comp p1 ≤ mainPathSmoothedRms comp p2 := by
    rw [mainPathSmoothedRms, mainPathSmoothedRms]
    nlinarith [mul_nonneg (sub_nonneg.2 hpp) (sub_nonneg.2 hc1)]
  have hsq0 : 0 ≤ envelopeSqrtOf comp p1 := by
    rw [envelopeSqrtOf_eq]; exact Real.sqrt_nonneg _
  have hsq : envelopeSqrtOf comp p1 ≤ envelopeSqrtOf comp p2 := by
    rw [envelopeSqrtOf_eq, envelopeSqrtOf_eq]
    exact Real.sqrt_le_sqrt hrmsmono
  have hlog : Real.log (envelopeSqrtOf comp p1 + 1e-30) ≤
      Real.log (envelopeSqrtOf comp p2 + 1e-30) := by
    refine Real.log_le_log (by positivity) (by linarith)
  have hL : (0:ℝ) ≤ LOG_SCALE_FACTOR := by norm_num [LOG_SCALE_FACTOR]
  rw [mainPathMaxReduction, mainPathMaxReduction]
  refine max_le_max (le_refl 0) ?_
  have := mul_le_mul_of_nonneg_right hlog hL
  linarith

/-- The main path's blended `compressed_level` is monotone in the input
power when the smoothing and attack/release coefficients lie in `[0, 1]`. -/
theorem mainPathCompressedLevel_mono (comp : CompressorState) (p1 p2 : ℝ)
    (hc0 : 0 ≤ comp.rms_smoothing_coeff) (hc1 : comp.rms_smoothing_coeff ≤ 1)
    (hr0 : 0 ≤ comp.rms_smoother)
    (ha0 : 0 ≤ comp.attack_coeff) (ha1 : comp.attack_coeff ≤ 1)
    (hrel0 : 0 ≤ comp.release_coeff) (hrel1 : comp.release_coeff ≤ 1)
    (hp1 : 0 ≤ p1) (hpp : p1 ≤ p2) :
    mainPathCompressedLevel comp p1 ≤ mainPathCompressedLevel comp p2 := by
  have hmr := mainPathMaxReduction_mono comp p1 p2 hc0 hc1 hr0 hp1 hpp
  simp only [mainPathCompressedLevel]
  exact blend_mono comp.gain_reduction comp.release_coeff comp.attack_coeff
    (mainPathMaxReduction comp p1) (mainPathMaxReduction comp p2)
    hrel0 hrel1 ha0 ha1 hmr

/-- C7 counterexample: a main-path compressor configured through
`SetCompressorParameters` with zero attack/release/smoothing coefficients
(hence settled on every call: the smoothed RMS and blended level equal
their steady-state values immediately, as the final conjunct verifies) has
its downward-path `envelope_output` strictly INCREASE when the input RMS
power rises from 1 to 4, contradicting the claimed direction. -/
theorem C7_counterexample :
    mainPathSettledComp.ratio_state ≤ NEGATIVE_THRESHOLD ∧
    mainPathSettledComp.threshold < mainPathCompressedLevel mainPathSettledComp 1 ∧
    mainPathSettledComp.threshold < mainPathCompressedLevel mainPathSettledComp 4 ∧
    ((ProcessCompressorBand mainPathSettledComp 1 1 1 ENVELOPE_TIME_CONSTANT).1).envelope_output
      < ((ProcessCompressorBand mainPathSettledComp 4 1 1 ENVELOPE_TIME_CONSTANT).1).envelope_output ∧
    ((ProcessCompressorBand ((ProcessCompressorBand mainPathSettledComp 4 1 1
          ENVELOPE_TIME_CONSTANT).1) 4 1 1 ENVELOPE_TIME_CONSTANT).1).envelope_output
      = ((ProcessCompressorBand mainPathSettledComp 4 1 1
          ENVELOPE_TIME_CONSTANT).1).envelope_output := by
  -- abbreviations and basic field facts
  have hthr : mainPathSettledComp.threshold = -1 := rfl
  have hratio : mainPathSettledComp.ratio_state = -1 := rfl
  have hg : mainPathSettledComp.gain_reduction = 0 := rfl
  have hrc : mainPathSettledComp.release_coeff = 0 := rfl
  have hac : mainPathSettledComp.attack_coeff = 0 := rfl
  have hur1 : mainPathSettledComp.upward_ratio = 1 := rfl
  have hrs : mainPathSettledComp.rms_smoother = 0 := rfl
  have hcoeff : mainPathSettledComp.rms_smoothing_coeff = 0 := by
    show min 0.5 (0 * 10.0) = 0
    norm_num
  have hmain : mainPathSettledComp.ratio_state ≤ NEGATIVE_THRESHOLD := by
    rw [hratio]; norm_num [NEGATIVE_THRESHOLD]
  -- numeric constants
  have hLpos : (0:ℝ) < LOG_SCALE_FACTOR := by norm_num [LOG_SCALE_FACTOR]
  have hL9 : LOG_SCALE_FACTOR ≤ 9 := by norm_num [LOG_SCALE_FACTOR]
  have htcpos : (0:ℝ) < ENVELOPE_TIME_CONSTANT := by norm_num [ENVELOPE_TIME_CONSTANT]
  have htcle : ENVELOPE_TIME_CONSTANT ≤ 0.12 := by norm_num [ENVELOPE_TIME_CONSTANT]
  -- the smoothed RMS is the input power itself (smoothing coefficient 0)
  have hrms : ∀ P : ℝ, mainPathSmoothedRms mainPathSettledComp P = P := by
    intro P; rw [mainPathSmoothedRms, hcoeff, hrs]; ring
  have hsq1 : envelopeSqrtOf mainPathSettledComp 1 = 1 := by
    rw [envelopeSqrtOf_eq, hrms]; exact Real.sqrt_one
  have hsq4 : envelopeSqrtOf mainPathSettledComp 4 = 2 := by
    rw [envelopeSqrtOf_eq, hrms, show (4:ℝ) = 2 ^ 2 by norm_num, Real.sqrt_sq (by norm_num)]
  -- log-domain levels
  set x1 : ℝ := Real.log (1 + 1e-30) * LOG_SCALE_FACTOR with hx1def
  set x2 : ℝ := Real.log (2 + 1e-30) * LOG_SCALE_FACTOR with hx2def
  have hx1pos : 0 < x1 := mul_pos (Real.log_pos (by norm_num)) hLpos
  have hx2pos : 0 < x2 := mul_pos (Real.log_pos (by norm_num)) hLpos
  have hx1small : x1 ≤ 0.1 := by
    have hlog : Real.log (1 + 1e-30) ≤ 1e-30 := by
      have := Real.log_le_sub_one_of_pos (show (0:ℝ) < 1 + 1e-30 by norm_num)
      linarith
    have : x1 ≤ 1e-30 * 9 :=
      mul_le_mul hlog hL9 hLpos.le (by norm_num)
    linarith
  have hx12 : x1 < x2 := by
    have hlt : Real.log (1 + 1e-30) < Real.log (2 + 1e-30) :=
      Real.log_lt_log (by norm_num) (by norm_num)
    exact mul_lt_mul_of_pos_right hlt hLpos
  -- max_reduction and compressed level values
  have hmr1 : mainPathMaxReduction mainPathSettledComp 1 = x1 + 1 := by
    rw [mainPathMaxReduction, hsq1, hthr, max_eq_right (by linarith)]
    ring
  have hmr4 : mainPathMaxReduction mainPathSettledComp 4 = x2 + 1 := by
    rw [mainPathMaxReduction, hsq4, hthr, max_eq_right (by linarith)]
    ring
  have hclP : ∀ P : ℝ, mainPathCompressedLevel mainPathSettledComp P =
      mainPathMaxReduction mainPathSettledComp P := by
    intro P
    simp only [mainPathCompressedLevel]
    split_ifs with h
    · rw [hrc, hg]; ring
    · rw [hac, hg]; ring
  have hc1v : mainPathCompressedLevel mainPathSettledComp 1 = x1 + 1 := by
    rw [hclP, hmr1]
  have hc4v : mainPathCompressedLevel mainPathSettledComp 4 = x2 + 1 := by
    rw [hclP, hmr4]
  have hdown1 : mainPathSettledComp.threshold < mainPathCompressedLevel mainPathSettledComp 1 := by
    rw [hthr, hc1v]; linarith
  have hdown4 : mainPathSettledComp.threshold < mainPathCompressedLevel mainPathSettledComp 4 := by
    rw [hthr, hc4v]; linarith
  refine ⟨hmain, hdown1, hdown4, ?_, ?_⟩
  · -- the strict increase
    rw [PCB_main_above_env _ _ _ _ _ hmain hdown1,
        PCB_main_above_env _ _ _ _ _ hmain hdown4, hc1v, hc4v, hthr, hur1]
    simp only [mul_one]
    have harg1 : (x1 + 1 - (-1)) * ENVELOPE_TIME_CONSTANT ≤ 1 := by
      have h21 : x1 + 1 - (-1) ≤ 2.1 := by linarith
      have := mul_le_mul h21 htcle htcpos.le (by norm_num)
      linarith
    have hE1lt : Real.exp ((x1 + 1 - (-1)) * ENVELOPE_TIME_CONSTANT) < MaxCompressionRatio := by
      have h1 : Real.exp ((x1 + 1 - (-1)) * ENVELOPE_TIME_CONSTANT) ≤ Real.exp 1 :=
        Real.exp_le_exp.2 harg1
      have h2 := Real.exp_one_lt_d9
      rw [MaxCompressionRatio]; linarith
    have hE12 : Real.exp ((x1 + 1 - (-1)) * ENVELOPE_TIME_CONSTANT) <
        Real.exp ((x2 + 1 - (-1)) * ENVELOPE_TIME_CONSTANT) :=
      Real.exp_lt_exp.2 (mul_lt_mul_of_pos_right (by linarith) htcpos)
    rw [if_pos hE1lt.le]
    by_cases h2 : Real.exp ((x2 + 1 - (-1)) * ENVELOPE_TIME_CONSTANT) ≤ MaxCompressionRatio
    · rw [if_pos h2]
      exact Real.exp_lt_exp.2 (mul_lt_mul_of_pos_right hE12 htcpos)
    · rw [if_neg h2]
      exact Real.exp_lt_exp.2 (mul_lt_mul_of_pos_right hE1lt htcpos)
  · -- settledness: the second call at power 4 reproduces the same stored gain
    obtain ⟨ht', hr', ha', hrl', -, hu', hsc', hrm'⟩ :=
      PCB_config_preserved mainPathSettledComp 4 1 1 ENVELOPE_TIME_CONSTANT
    set s1 := (ProcessCompressorBand mainPathSettledComp 4 1 1 ENVELOPE_TIME_CONSTANT).1 with hs1
    have hrms1 : mainPathSmoothedRms s1 4 = 4 := by
      rw [mainPathSmoothedRms, hrm', hrms]; ring
    have hsq4' : envelopeSqrtOf s1 4 = 2 := by
      rw [envelopeSqrtOf_eq, hrms1, show (4:ℝ) = 2 ^ 2 by norm_num, Real.sqrt_sq (by norm_num)]
    have hmr4' : mainPathMaxReduction s1 4 = x2 + 1 := by
      rw [mainPathMaxReduction, hsq4', ht', hthr, max_eq_right (by linarith)]
      ring
    have hcl4' : mainPathCompressedLevel s1 4 = x2 + 1 := by
      simp only [mainPathCompressedLevel]
      rw [hmr4']
      split_ifs with h
      · rw [hrl', hrc]; ring
      · rw [ha', hac]; ring
    have hmain' : s1.ratio_state ≤ NEGATIVE_THRESHOLD := by
      rw [hr']; exact hmain
    have hdown' : s1.threshold < mainPathCompressedLevel s1 4 := by
      rw [ht', hthr, hcl4']; linarith
    rw [PCB_main_above_env _ _ _ _ _ hmain' hdown',
        PCB_main_above_env _ _ _ _ _ hmain hdown4,
        hcl4', hc4v, ht', hu']

/-- C7 amended: for the main compression path with the state and arguments
held fixed (smoothing and attack/release coefficients in `[0, 1]`,
non-negative RMS state, upward ratio, and time constant), a higher input
RMS power yields a downward-path `envelope_output` greater than or equal to
the one from a lower power: the stored linear gain is non-decreasing, not
non-increasing, in the level above threshold. -/
theorem C7_monotone_amended (comp : CompressorState) (p1 p2 oL bG tc : ℝ)
    (hmain : comp.ratio_state ≤ NEGATIVE_THRESHOLD)
    (hc0 : 0 ≤ comp.rms_smoothing_coeff) (hc1 : comp.rms_smoothing_coeff ≤ 1)
    (hr0 : 0 ≤ comp.rms_smoother)
    (ha0 : 0 ≤ comp.attack_coeff) (ha1 : comp.attack_coeff ≤ 1)
    (hrel0 : 0 ≤ comp.release_coeff) (hrel1 : comp.release_coeff ≤ 1)
    (hur : 0 ≤ comp.upward_ratio) (htc : 0 ≤ tc)
    (hp1 : 0 ≤ p1) (hpp : p1 ≤ p2)
    (hdown1 : comp.threshold < mainPathCompressedLevel comp p1)
    (hdown2 : comp.threshold < mainPathCompressedLevel comp p2) :
    ((ProcessCompressorBand comp p1 oL bG tc).1).envelope_output ≤
      ((ProcessCompressorBand comp p2 oL bG tc).1).envelope_output := by
  rw [PCB_main_above_env comp p1 oL bG tc hmain hdown1,
      PCB_main_above_env comp p2 oL bG tc hmain hdown2]
  have hcl := mainPathCompressedLevel_mono comp p1 p2 hc0 hc1 hr0 ha0 ha1 hrel0 hrel1 hp1 hpp
  have hexp : Real.exp ((mainPathCompressedLevel comp p1 - comp.threshold) * tc) ≤
      Real.exp ((mainPathCompressedLevel comp p2 - comp.threshold) * tc) :=
    Real.exp_le_exp.2 (mul_le_mul_of_nonneg_right (by linarith) htc)
  have huf : Real.exp ((mainPathCompressedLevel comp p1 - comp.threshold) * tc)
        * comp.upward_ratio ≤
      Real.exp ((mainPathCompressedLevel comp p2 - comp.threshold) * tc)
        * comp.upward_ratio :=
    mul_le_mul_of_nonneg_right hexp hur
  split_ifs with h1 h2 h2
  · exact Real.exp_le_exp.2 (mul_le_mul_of_nonneg_right huf htc)
  · exact Real.exp_le_exp.2 (mul_le_mul_of_nonneg_right h1 htc)
  · exact absurd (le_trans huf h2) h1
  · exact le_refl _

/-- Witness for C7's amended monotonicity at the concrete main-path state
`monotoneWitnessComp` and powers 1 and 4. -/
theorem C7_witness :
    ((ProcessCompressorBand monotoneWitnessComp 1 1 1
        ENVELOPE_TIME_CONSTANT).1).envelope_output ≤
      ((ProcessCompressorBand monotoneWitnessComp 4 1 1
        ENVELOPE_TIME_CONSTANT).1).envelope_output := by
  have hg : monotoneWitnessComp.gain_reduction = 0 := rfl
  have ha : monotoneWitnessComp.attack_coeff = 1 := rfl
  have hr : monotoneWitnessComp.release_coeff = 1 := rfl
  have hcl : ∀ P : ℝ, mainPathCompressedLevel monotoneWitnessComp P = 0 := by
    intro P
    simp only [mainPathCompressedLevel]
    split_ifs with h
    · rw [hg, hr]; ring
    · rw [hg, ha]; ring
  have hdown : ∀ P : ℝ,
      monotoneWitnessComp.threshold < mainPathCompressedLevel monotoneWitnessComp P := by
    intro P
    rw [hcl, show monotoneWitnessComp.threshold = -1 from rfl]
    norm_num
  refine C7_monotone_amended monotoneWitnessComp 1 4 1 1 ENVELOPE_TIME_CONSTANT
    ?_ ?_ ?_ ?_ ?_ ?_ ?_ ?_ ?_ ?_ ?_ ?_ (hdown 1) (hdown 4)
  · show (-1 : ℝ) ≤ NEGATIVE_THRESHOLD
    norm_num [NEGATIVE_THRESHOLD]
  · show (0:ℝ) ≤ min 0.5 (1 * 10.0)
    norm_num
  · show min 0.5 (1 * 10.0) ≤ (1:ℝ)
    norm_num
  · show (0:ℝ) ≤ 0
    norm_num
  · show (0:ℝ) ≤ 1
    norm_num
  · show (1:ℝ) ≤ 1
    norm_num
  · show (0:ℝ) ≤ 1
    norm_num
  · show (1:ℝ) ≤ 1
    norm_num
  · show (0:ℝ) ≤ 1
    norm_num
  · norm_num [ENVELOPE_TIME_CONSTANT]
  · norm_num
  · norm_num

/-- C8: after any `ProcessCompressorBand` call (finite non-negative input
power; the engine always passes a non-negative time constant and configures
non-negative upward ratios), the stored `envelope_output` is a non-negative
linear gain at least `MIN_GAIN_THRESHOLD`: every branch's result, whether
explicitly floored or not, is at or above the minimum-gain floor. -/
theorem C8_envelope_floor (comp : CompressorState) (inputPower outputLevel bandGain tc : ℝ)
    (hp : 0 ≤ inputPower) (htc : 0 ≤ tc) (hur : 0 ≤ comp.upward_ratio) :
    MIN_GAIN_THRESHOLD ≤
      ((ProcessCompressorBand comp inputPower outputLevel bandGain tc).1).envelope_output ∧
    0 ≤ ((ProcessCompressorBand comp inputPower outputLevel bandGain tc).1).envelope_output := by
  have hmin1 : MIN_GAIN_THRESHOLD ≤ 1 := by norm_num [MIN_GAIN_THRESHOLD]
  have hminpos : (0 : ℝ) ≤ MIN_GAIN_THRESHOLD := by norm_num [MIN_GAIN_THRESHOLD]
  have key : MIN_GAIN_THRESHOLD ≤
      ((ProcessCompressorBand comp inputPower outputLevel bandGain tc).1).envelope_output := by
    by_cases hmain : comp.ratio_state ≤ NEGATIVE_THRESHOLD
    · rcases le_or_lt (mainPathCompressedLevel comp inputPower) comp.threshold with hb | hb
      · rw [PCB_main_below_env comp inputPower outputLevel bandGain tc hmain hb]
        split_ifs with h
        · exact le_refl _
        · push_neg at h; exact h.le
      · rw [PCB_main_above_env comp inputPower outputLevel bandGain tc hmain hb]
        refine le_trans hmin1 (Real.one_le_exp ?_)
        split_ifs with h
        · exact mul_nonneg (mul_nonneg (Real.exp_pos _).le hur) htc
        · exact mul_nonneg (by norm_num [MaxCompressionRatio]) htc
    · rcases le_or_lt (linearThresholdDiff comp inputPower tc) 0 with hb | hb
      · rw [PCB_linear_below_env comp inputPower outputLevel bandGain tc hmain hb]
        split_ifs with h
        · exact le_refl _
        · push_neg at h; exact h.le
      · rw [PCB_linear_above_env comp inputPower outputLevel bandGain tc hmain hb]
        split_ifs with h
        · exact le_trans hmin1 (Real.one_le_exp (mul_nonneg hb.le htc))
        · exact le_refl _
  exact ⟨key, le_trans hminpos key⟩

/-- Witness for C8 at the freshly initialized compressor, unit input power,
and the engine's time constant. -/
theorem C8_witness :
    MIN_GAIN_THRESHOLD ≤
      ((ProcessCompressorBand InitializeCompressor 1 1 1
          ENVELOPE_TIME_CONSTANT).1).envelope_output ∧
    0 ≤ ((ProcessCompressorBand InitializeCompressor 1 1 1
          ENVELOPE_TIME_CONSTANT).1).envelope_output :=
  C8_envelope_floor InitializeCompressor 1 1 1 ENVELOPE_TIME_CONSTANT
    (by norm_num) (by norm_num [ENVELOPE_TIME_CONSTANT])
    (by norm_num [InitializeCompressor])


/-- Both per-sample filtering steps satisfy the circular-buffer
bookkeeping specification (simple mode). -/
theorem simpleModeStep_spec (in0 inR : Buf) : FilterStepSpec in0 inR (simpleModeStep in0 inR) := by
  intro p i
  refine ⟨rfl, rfl, ?_, ?_⟩
  · intro b j
    simp only [simpleModeStep, storeAndAdvance]
    simp
  · intro b j hj
    simp only [simpleModeStep, storeAndAdvance]
    simp [hj]

/-- Both per-sample filtering steps satisfy the circular-buffer
bookkeeping specification (advanced mode). -/
theorem advancedModeStep_spec (in0 inR : Buf) : FilterStepSpec in0 inR (advancedModeStep in0 inR) := by
  intro p i
  refine ⟨rfl, rfl, ?_, ?_⟩
  · intro b j
    simp only [advancedModeStep, storeAndAdvance]
    simp
  · intro b j hj
    simp only [advancedModeStep, storeAndAdvance]
    simp [hj]

/-- The mode-dispatched step used by `processCore` satisfies the
specification for either value of the advanced-mode flag. -/
theorem modeStep_spec (in0 inR : Buf) (b : Bool) :
    FilterStepSpec in0 inR
      (if b then advancedModeStep in0 inR else simpleModeStep in0 inR) := by
  cases b
  · simpa using simpleModeStep_spec in0 inR
  · simpa using advancedModeStep_spec in0 inR

/-- After `k` filtering steps from a cursor below the buffer size, the
shared cursor is the entry cursor plus `k`, modulo the buffer size. -/
theorem filterPhase_bufferIndex (in0 inR : Buf) (step : OTTPlugin → ℕ → OTTPlugin)
    (hstep : FilterStepSpec in0 inR step) (p : OTTPlugin)
    (hb : p.bufferIndex < DELAY_BUFFER_SIZE) :
    ∀ k, (filterPhase step p k).bufferIndex = (p.bufferIndex + k) % DELAY_BUFFER_SIZE := by
  intro k
  induction k with
  | zero =>
    show p.bufferIndex = (p.bufferIndex + 0) % DELAY_BUFFER_SIZE
    simp only [DELAY_BUFFER_SIZE] at *
    omega
  | succ k ih =>
    have h1 := (hstep (filterPhase step p k) k).1
    rw [filterPhase, h1, ih, wrapInc]
    simp only [DELAY_BUFFER_SIZE] at *
    split_ifs with h <;> omega

/-- The filtering pass never touches the output channel index. -/
theorem filterPhase_outIdx (in0 inR : Buf) (step : OTTPlugin → ℕ → OTTPlugin)
    (hstep : FilterStepSpec in0 inR step) (p : OTTPlugin) :
    ∀ k, (filterPhase step p k).outputChannelIndex = p.outputChannelIndex := by
  intro k
  induction k with
  | zero => rfl
  | succ k ih => rw [filterPhase, (hstep (filterPhase step p k) k).2.1, ih]

/-- Band-buffer entry `i` is unchanged by every filtering step after the
`i`-th. -/
theorem filterPhase_band_stable (in0 inR : Buf) (step : OTTPlugin → ℕ → OTTPlugin)
    (hstep : FilterStepSpec in0 inR step) (p : OTTPlugin) (b i : ℕ) :
    ∀ k, i < k → (filterPhase step p k).bandBuffers b i =
      (filterPhase step p (i + 1)).bandBuffers b i := by
  intro k
  induction k with
  | zero => omega
  | succ k ih =>
    intro hik
    rcases Nat.lt_succ_iff_lt_or_eq.1 hik with h | h
    · rw [filterPhase, (hstep (filterPhase step p k) k).2.2.2 b i (by omega), ih h]
    · rw [h]

/-- Within one block of at most `DELAY_BUFFER_SIZE` samples, the delay-buffer
cell written at step `i` (position `(entry cursor + i) mod size`) still
holds the band value of sample `i` at the end of the filtering pass: later
steps write strictly different positions. -/
theorem filterPhase_delay_value (in0 inR : Buf) (step : OTTPlugin → ℕ → OTTPlugin)
    (hstep : FilterStepSpec in0 inR step) (p : OTTPlugin)
    (hb : p.bufferIndex < DELAY_BUFFER_SIZE) (b i : ℕ) (hb6 : b ≠ 6) (hb7 : b ≠ 7) :
    ∀ k, i < k → k ≤ DELAY_BUFFER_SIZE →
      (filterPhase step p k).delayBuffers b ((p.bufferIndex + i) % DELAY_BUFFER_SIZE) =
        (filterPhase step p k).bandBuffers b i := by
  intro k
  induction k with
  | zero => omega
  | succ k ih =>
    intro hik hkN
    have hcur : (filterPhase step p k).bufferIndex =
        (p.bufferIndex + k) % DELAY_BUFFER_SIZE :=
      filterPhase_bufferIndex in0 inR step hstep p hb k
    rcases Nat.lt_succ_iff_lt_or_eq.1 hik with h | h
    · -- i < k: the k-th write touches a different position
      have hneq : (p.bufferIndex + i) % DELAY_BUFFER_SIZE ≠
          (filterPhase step p k).bufferIndex := by
        rw [hcur]
        simp only [DELAY_BUFFER_SIZE] at *
        omega
      rw [filterPhase, (hstep (filterPhase step p k) k).2.2.1 b _, if_neg hneq,
        (hstep (filterPhase step p k) k).2.2.2 b i (by omega)]
      exact ih h (by omega)
    · -- i = k: this is exactly the k-th write
      subst h
      have heq : (p.bufferIndex + i) % DELAY_BUFFER_SIZE =
          (filterPhase step p i).bufferIndex := hcur.symm
      rw [filterPhase, (hstep (filterPhase step p i) i).2.2.1 b _, if_pos heq]
      simp [hb6, hb7]

/-- After `k` compression steps the read cursor is the start cursor plus
`k`, modulo the buffer size. -/
theorem compPhase_writeIndex (s : OTTPlugin × (Option Buf × Option Buf))
    (hw : s.1.writeIndex < DELAY_BUFFER_SIZE) :
    ∀ k, (compPhase s k).1.writeIndex = (s.1.writeIndex + k) % DELAY_BUFFER_SIZE := by
  intro k
  induction k with
  | zero =>
    show s.1.writeIndex = (s.1.writeIndex + 0) % DELAY_BUFFER_SIZE
    simp only [DELAY_BUFFER_SIZE] at *
    omega
  | succ k ih =>
    have h1 : (compressionStep (compPhase s k) k).1.writeIndex =
        wrapInc (compPhase s k).1.writeIndex := rfl
    rw [compPhase, h1, ih, wrapInc]
    simp only [DELAY_BUFFER_SIZE] at *
    split_ifs with h <;> omega

/-- The compression pass never writes the delay buffers. -/
theorem compPhase_delay (s : OTTPlugin × (Option Buf × Option Buf)) :
    ∀ k, (compPhase s k).1.delayBuffers = s.1.delayBuffers := by
  intro k
  induction k with
  | zero => rfl
  | succ k ih =>
    have h1 : (compressionStep (compPhase s k) k).1.delayBuffers =
        (compPhase s k).1.delayBuffers := rfl
    rw [compPhase, h1, ih]

/-- The compression pass never touches the output channel index. -/
theorem compPhase_outIdx (s : OTTPlugin × (Option Buf × Option Buf)) :
    ∀ k, (compPhase s k).1.outputChannelIndex = s.1.outputChannelIndex := by
  intro k
  induction k with
  | zero => rfl
  | succ k ih =>
    have h1 : (compressionStep (compPhase s k) k).1.outputChannelIndex =
        (compPhase s k).1.outputChannelIndex := rfl
    rw [compPhase, h1, ih]

/-- With `outputChannelIndex = 0`, one compression step leaves the second
output buffer untouched: both per-sample writes go to channel 0. -/
theorem compressionStep_sndOut (s : OTTPlugin × (Option Buf × Option Buf)) (i : ℕ)
    (h : s.1.outputChannelIndex = 0) :
    (compressionStep s i).2.2 = s.2.2 := by
  simp only [compressionStep, writeChan, h]
  simp

/-- With `outputChannelIndex = 0`, the whole compression pass leaves the
second output buffer untouched. -/
theorem compPhase_sndOut (s : OTTPlugin × (Option Buf × Option Buf))
    (h : s.1.outputChannelIndex = 0) :
    ∀ k, (compPhase s k).2.2 = s.2.2 := by
  intro k
  induction k with
  | zero => rfl
  | succ k ih =>
    rw [compPhase, compressionStep_sndOut _ k (by rw [compPhase_outIdx]; exact h), ih]

/-- `readPos = (cursor_at_block_end - n) mod size` recovers the entry
cursor for block lengths up to the buffer size. -/
theorem readPosCalc_eq (b0 n : ℕ) (hb : b0 < DELAY_BUFFER_SIZE)
    (hn : n ≤ DELAY_BUFFER_SIZE) :
    readPosCalc ((b0 + n) % DELAY_BUFFER_SIZE) n = b0 := by
  rw [readPosCalc]
  simp only [DELAY_BUFFER_SIZE] at *
  split_ifs with h <;> omega

/-- `channelSetup` can only collapse the output channel index to 0, never
raise it. -/
theorem channelSetup_outIdx (p : OTTPlugin) (ins outs : Option Buf × Option Buf)
    (h : p.outputChannelIndex = 0) :
    (channelSetup p ins outs).outputChannelIndex = 0 := by
  rw [channelSetup]
  split_ifs <;> simp [h]

/-- With `outputChannelIndex = 0`, the whole core pass leaves the second
output buffer untouched. -/
theorem processCore_sndOut (p3 : OTTPlugin) (in0 inR : Buf)
    (outs : Option Buf × Option Buf) (n : ℕ) (h : p3.outputChannelIndex = 0) :
    (processCore p3 in0 inR outs n).2.2 = outs.2 := by
  simp only [processCore]
  refine compPhase_sndOut _ ?_ _
  show (filterPhase _ p3 n).outputChannelIndex = 0
  rw [filterPhase_outIdx in0 inR _ (modeStep_spec in0 inR _) p3]
  exact h

/-- C3: with bypass off and the engine in any state it can actually reach
(`outputChannelIndex` is initialized to 0 and no code path ever sets it to
1), a non-bypass `OTT_ProcessAudio` call never writes the second output
buffer, even when both input and both output buffers are present and
distinct: `outputs[outputChannelIndex]` aliases `outputs[0]`, so the right
channel sample overwrites the left one and `outputs[1]` keeps its previous
contents, contradicting the claimed stereo behaviour. -/
theorem C3_right_output_unwritten (p : OTTPlugin) (ins outs : Option Buf × Option Buf)
    (n : ℤ) (hby : p.bypass = false) (hout : p.outputChannelIndex = 0) :
    (OTT_ProcessAudio p ins outs n).2.2 = outs.2 := by
  rw [OTT_ProcessAudio]
  simp only [hby, Bool.false_eq_true, if_false]
  split_ifs with hn
  · rfl
  · exact processCore_sndOut _ _ _ outs _ (channelSetup_outIdx p ins outs hout)

/-- Witness for C3 at the initialized engine state, distinct non-null
stereo buffers, and one sample. -/
theorem C3_witness :
    (OTT_ProcessAudio testPlugin (some (fun _ => 1), some (fun _ => 2))
        (some zeroBuf, some zeroBuf) 1).2.2 = some zeroBuf :=
  C3_right_output_unwritten testPlugin (some (fun _ => 1), some (fun _ => 2))
    (some zeroBuf, some zeroBuf) 1 rfl rfl

/-- C5: for a block of `n` samples (`0 < n <= 32768`) starting from an
in-range cursor, the compression pass's read cursor starts at
`(cursor_at_block_end - n) mod 32768`, which is exactly the entry cursor;
at every sample `i` the read position equals the position the filtering
pass wrote for sample `i` (same order), and the delay-buffer cell read
there still holds the band value stored for sample `i` earlier in the same
call. -/
theorem C5_block_alignment (in0 inR : Buf) (step : OTTPlugin → ℕ → OTTPlugin)
    (hstep : step = simpleModeStep in0 inR ∨ step = advancedModeStep in0 inR)
    (p : OTTPlugin) (outs : Option Buf × Option Buf) (n : ℕ)
    (hb : p.bufferIndex < DELAY_BUFFER_SIZE) (hn0 : 0 < n) (hn : n ≤ DELAY_BUFFER_SIZE) :
    readPosCalc (filterPhase step p n).bufferIndex n = p.bufferIndex ∧
    (∀ i, i < n →
      (compPhase ({ filterPhase step p n with
          writeIndex := readPosCalc (filterPhase step p n).bufferIndex n }, outs) i).1.writeIndex
        = (filterPhase step p i).bufferIndex) ∧
    (∀ i, i < n → ∀ b, b < 6 →
      (compPhase ({ filterPhase step p n with
          writeIndex := readPosCalc (filterPhase step p n).bufferIndex n }, outs) i).1.delayBuffers
          b ((compPhase ({ filterPhase step p n with
              writeIndex := readPosCalc (filterPhase step p n).bufferIndex n }, outs) i).1.writeIndex)
        = (filterPhase step p n).bandBuffers b i) := by
  have hspec : FilterStepSpec in0 inR step := by
    rcases hstep with h | h
    · rw [h]; exact simpleModeStep_spec in0 inR
    · rw [h]; exact advancedModeStep_spec in0 inR
  have hbi := filterPhase_bufferIndex in0 inR step hspec p hb
  have hrp : readPosCalc (filterPhase step p n).bufferIndex n = p.bufferIndex := by
    rw [hbi n]; exact readPosCalc_eq p.bufferIndex n hb hn
  have hwi : ∀ i, (compPhase ({ filterPhase step p n with
      writeIndex := readPosCalc (filterPhase step p n).bufferIndex n }, outs) i).1.writeIndex
        = (p.bufferIndex + i) % DELAY_BUFFER_SIZE := by
    intro i
    rw [compPhase_writeIndex _ (by simpa [hrp] using hb) i]
    simp [hrp]
  refine ⟨hrp, fun i hi => ?_, fun i hi b hb6 => ?_⟩
  · rw [hwi i, hbi i]
  · rw [hwi i, compPhase_delay]
    show (filterPhase step p n).delayBuffers b ((p.bufferIndex + i) % DELAY_BUFFER_SIZE) =
      (filterPhase step p n).bandBuffers b i
    exact filterPhase_delay_value in0 inR step hspec p hb b i
      (by omega) (by omega) n hi hn

/-- Witness for C5: simple mode, zero input buffers, the initialized
engine state, and a one-sample block. -/
theorem C5_witness :
    readPosCalc (filterPhase (simpleModeStep zeroBuf zeroBuf) testPlugin 1).bufferIndex 1
        = testPlugin.bufferIndex ∧
    (∀ i, i < 1 →
      (compPhase ({ filterPhase (simpleModeStep zeroBuf zeroBuf) testPlugin 1 with
          writeIndex := readPosCalc
            (filterPhase (simpleModeStep zeroBuf zeroBuf) testPlugin 1).bufferIndex 1 },
          (some zeroBuf, some zeroBuf)) i).1.writeIndex
        = (filterPhase (simpleModeStep zeroBuf zeroBuf) testPlugin i).bufferIndex) ∧
    (∀ i, i < 1 → ∀ b, b < 6 →
      (compPhase ({ filterPhase (simpleModeStep zeroBuf zeroBuf) testPlugin 1 with
          writeIndex := readPosCalc
            (filterPhase (simpleModeStep zeroBuf zeroBuf) testPlugin 1).bufferIndex 1 },
          (some zeroBuf, some zeroBuf)) i).1.delayBuffers
          b ((compPhase ({ filterPhase (simpleModeStep zeroBuf zeroBuf) testPlugin 1 with
              writeIndex := readPosCalc
                (filterPhase (simpleModeStep zeroBuf zeroBuf) testPlugin 1).bufferIndex 1 },
              (some zeroBuf, some zeroBuf)) i).1.writeIndex)
        = (filterPhase (simpleModeStep zeroBuf zeroBuf) testPlugin 1).bandBuffers b i) :=
  C5_block_alignment zeroBuf zeroBuf (simpleModeStep zeroBuf zeroBuf) (Or.inl rfl)
    testPlugin (some zeroBuf, some zeroBuf) 1
    (by show (0:ℕ) < DELAY_BUFFER_SIZE; norm_num [DELAY_BUFFER_SIZE])
    (by norm_num)
    (by norm_num [DELAY_BUFFER_SIZE])

/-- C10: for a block of `n` samples with `0 < n <= 32768` and an in-range
entry cursor, every delay-buffer position used by the filtering pass and
the compression pass is the wrapped cursor `(entry + k) mod 32768`, hence
in `[0, 32768)`; the band buffers are indexed directly by the in-block
sample index `i < n <= 32768`; the computed read position is in range; and
both cursors are again in `[0, 32768)` at every step, including exit
(`k = n`). -/
theorem C10_index_bounds (in0 inR : Buf) (step : OTTPlugin → ℕ → OTTPlugin)
    (hstep : step = simpleModeStep in0 inR ∨ step = advancedModeStep in0 inR)
    (p : OTTPlugin) (outs : Option Buf × Option Buf) (n : ℕ)
    (hb : p.bufferIndex < DELAY_BUFFER_SIZE) (hn0 : 0 < n) (hn : n ≤ DELAY_BUFFER_SIZE) :
    (∀ k, k ≤ n →
      (filterPhase step p k).bufferIndex = (p.bufferIndex + k) % DELAY_BUFFER_SIZE ∧
      (filterPhase step p k).bufferIndex < DELAY_BUFFER_SIZE) ∧
    (∀ i, i < n → i < DELAY_BUFFER_SIZE) ∧
    readPosCalc (filterPhase step p n).bufferIndex n = p.bufferIndex ∧
    readPosCalc (filterPhase step p n).bufferIndex n < DELAY_BUFFER_SIZE ∧
    (∀ k, k ≤ n →
      (compPhase ({ filterPhase step p n with
          writeIndex := readPosCalc (filterPhase step p n).bufferIndex n }, outs) k).1.writeIndex
        = (p.bufferIndex + k) % DELAY_BUFFER_SIZE ∧
      (compPhase ({ filterPhase step p n with
          writeIndex := readPosCalc (filterPhase step p n).bufferIndex n }, outs) k).1.writeIndex
        < DELAY_BUFFER_SIZE) := by
  have hspec : FilterStepSpec in0 inR step := by
    rcases hstep with h | h
    · rw [h]; exact simpleModeStep_spec in0 inR
    · rw [h]; exact advancedModeStep_spec in0 inR
  have hbi := filterPhase_bufferIndex in0 inR step hspec p hb
  have hrp : readPosCalc (filterPhase step p n).bufferIndex n = p.bufferIndex := by
    rw [hbi n]; exact readPosCalc_eq p.bufferIndex n hb hn
  have hNpos : 0 < DELAY_BUFFER_SIZE := by norm_num [DELAY_BUFFER_SIZE]
  refine ⟨fun k hk => ⟨hbi k, ?_⟩, fun i hi => lt_of_lt_of_le hi hn, hrp, ?_, fun k hk => ?_⟩
  · rw [hbi k]; exact Nat.mod_lt _ hNpos
  · rw [hrp]; exact hb
  · have hwi := compPhase_writeIndex
      ({ filterPhase step p n with
          writeIndex := readPosCalc (filterPhase step p n).bufferIndex n }, outs)
      (by simpa [hrp] using hb) k
    constructor
    · rw [hwi]; simp [hrp]
    · rw [hwi]; exact Nat.mod_lt _ hNpos

/-- Witness for C10: simple mode, zero input buffers, the initialized
engine state, and a one-sample block. -/
theorem C10_witness :
    (∀ k, k ≤ 1 →
      (filterPhase (simpleModeStep zeroBuf zeroBuf) testPlugin k).bufferIndex
        = (testPlugin.bufferIndex + k) % DELAY_BUFFER_SIZE ∧
      (filterPhase (simpleModeStep zeroBuf zeroBuf) testPlugin k).bufferIndex
        < DELAY_BUFFER_SIZE) ∧
    (∀ i, i < 1 → i < DELAY_BUFFER_SIZE) ∧
    readPosCalc (filterPhase (simpleModeStep zeroBuf zeroBuf) testPlugin 1).bufferIndex 1
      = testPlugin.bufferIndex ∧
    readPosCalc (filterPhase (simpleModeStep zeroBuf zeroBuf) testPlugin 1).bufferIndex 1
      < DELAY_BUFFER_SIZE ∧
    (∀ k, k ≤ 1 →
      (compPhase ({ filterPhase (simpleModeStep zeroBuf zeroBuf) testPlugin 1 with
          writeIndex := readPosCalc
            (filterPhase (simpleModeStep zeroBuf zeroBuf) testPlugin 1).bufferIndex 1 },
          (some zeroBuf, some zeroBuf)) k).1.writeIndex
        = (testPlugin.bufferIndex + k) % DELAY_BUFFER_SIZE ∧
      (compPhase ({ filterPhase (simpleModeStep zeroBuf zeroBuf) testPlugin 1 with
          writeIndex := readPosCalc
            (filterPhase (simpleModeStep zeroBuf zeroBuf) testPlugin 1).bufferIndex 1 },
          (some zeroBuf, some zeroBuf)) k).1.writeIndex < DELAY_BUFFER_SIZE) :=
  C10_index_bounds zeroBuf zeroBuf (simpleModeStep zeroBuf zeroBuf) (Or.inl rfl)
    testPlugin (some zeroBuf, some zeroBuf) 1
    (by show (0:ℕ) < DELAY_BUFFER_SIZE; norm_num [DELAY_BUFFER_SIZE])
    (by norm_num)
    (by norm_num [DELAY_BUFFER_SIZE])

end
